import Mathlib

/-!
Verification of the Moxa-IOLogik-API-monitor repository against its
natural-language specification.

The repository ships a deployment configuration (`ecosystem.config.js`)
and a README; the acquisition script `app.py` that the configuration
launches is referenced but not contained in the repository.  The
deployment configuration is embedded directly below; the acquisition
pipeline (DeviceClient, Sampler, Persister, RingBuffer) is modelled
from the specification's component contracts.
-/

/-- Status tag of a reading: `ok`, or `error` when the device omitted or
malformed the channel's value. -/
inductive Status where
  | ok : Status
  | error : Status
deriving DecidableEq, Repr

/-- Modelled from the spec: one sample of one channel at one instant
(spec §3, `app.py` is absent from the repository).  Timestamps are
naturals, voltage values integers; no claim depends on value arithmetic. -/
structure Reading where
  timestamp : Nat
  channel_id : String
  value : Int
  status : Status
deriving DecidableEq, Repr

/-- Modelled from the spec: per-channel bounded store of the most recent
readings (spec §4.4, `app.py` is absent from the repository).  The store
is an association list from channel identifier to the channel's entries,
most-recent-last. -/
structure RingBuffer where
  capacity : Nat
  store : List (String × List Reading)
deriving DecidableEq, Repr

/-- The entries currently held for a channel (empty when the channel has
never been pushed to). -/
def getChan : List (String × List Reading) → String → List Reading
  | [], _ => []
  | (c', l) :: rest, c => if c' = c then l else getChan rest c

/-- Replace (or create) the entry list of a channel. -/
def setChan : List (String × List Reading) → String → List Reading → List (String × List Reading)
  | [], c, l => [(c, l)]
  | (c', l') :: rest, c, l => if c' = c then (c, l) :: rest else (c', l') :: setChan rest c l

/-- Modelled from the spec: the per-channel eviction step of `push`
(spec §4.4): when the channel is at capacity the oldest entry is evicted
before the new reading is appended, most-recent-last. -/
def pushList (cap : Nat) (l : List Reading) (r : Reading) : List Reading :=
  if l.length = cap then l.tail ++ [r] else l ++ [r]

/-- Modelled from the spec: push one reading into its channel's bounded
entry list (spec §4.4, `app.py` is absent from the repository). -/
def pushReading (rb : RingBuffer) (r : Reading) : RingBuffer :=
  { rb with store := setChan rb.store r.channel_id (pushList rb.capacity (getChan rb.store r.channel_id) r) }

/-- Push a whole batch, one reading at a time, in batch order. -/
def pushBatch (rb : RingBuffer) (batch : List Reading) : RingBuffer :=
  batch.foldl pushReading rb

/-- Modelled from the spec: `snapshot(channel_id)` returns the channel's
entries most-recent-last together with the (unchanged) buffer
(spec §4.4: snapshot returns a consistent copy and has no effect on the
buffer). -/
def snapshot (rb : RingBuffer) (c : String) : List Reading × RingBuffer :=
  (getChan rb.store c, rb)

/-- A ring buffer as created empty at startup. -/
def emptyRing (cap : Nat) : RingBuffer :=
  { capacity := cap, store := [] }

/-- Modelled from the spec: the shared mutable state of the acquisition
pipeline: the ring buffer and Persister's two output files, each file a
list of rows in append order (spec §4.3, `app.py` is absent from the
repository). -/
structure SamplerState where
  ring : RingBuffer
  logFile : List Reading
  csvFile : List Reading
deriving DecidableEq, Repr

/-- Modelled from the spec: `Persister.append` appends each reading of the
batch as one row to the CSV file and one line to the log file, in call
order, never rewriting prior rows (spec §4.3). -/
def persistAppend (st : SamplerState) (batch : List Reading) : SamplerState :=
  { st with logFile := st.logFile ++ batch, csvFile := st.csvFile ++ batch }

/-- Look a channel up in the raw device response. -/
def lookupChan : List (String × Int) → String → Option Int
  | [], _ => none
  | (c', v) :: rest, c => if c' = c then some v else lookupChan rest c

/-- Modelled from the spec: the Reading the Sampler constructs for one
configured channel from the raw response: the tick's timestamp, the
device value with `status = ok` when present, and `status = error` when
the channel is missing from the response (spec §4.1–4.2). -/
def mkReading (ts : Nat) (resp : List (String × Int)) (c : String) : Reading :=
  match lookupChan resp c with
  | some v => { timestamp := ts, channel_id := c, value := v, status := Status.ok }
  | none => { timestamp := ts, channel_id := c, value := 0, status := Status.error }

/-- Modelled from the spec: on a successful fetch the Sampler constructs
one Reading per configured channel, in configured order, with the tick's
timestamp (spec §4.1–4.2, `app.py` is absent from the repository). -/
def mkBatch (ts : Nat) (channels : List String) (resp : List (String × Int)) : List Reading :=
  channels.map (mkReading ts resp)

/-- The outcome of one `DeviceClient.fetch`: either the ordered raw
channel/value pairs, or a fetch error message. -/
def FetchResult : Type := Except String (List (String × Int))

/-- Modelled from the spec: one poll cycle of the Sampler (spec §4.2).
On success the frozen batch is forwarded to Persister and RingBuffer and
returned; on failure nothing is written and no Reading is produced. -/
def pollCycle (channels : List String) (st : SamplerState) (ts : Nat)
    (fetched : Except String (List (String × Int))) : SamplerState × List Reading :=
  match fetched with
  | Except.error _ => (st, [])
  | Except.ok resp =>
      let batch := mkBatch ts channels resp
      ({ ring := pushBatch st.ring batch,
         logFile := st.logFile ++ batch,
         csvFile := st.csvFile ++ batch }, batch)

/-- Run a sequence of poll cycles; each input is the tick's timestamp and
its fetch outcome.  Returns the final state and the per-cycle batches. -/
def runCycles (channels : List String) (st : SamplerState) :
    List (Nat × Except String (List (String × Int))) → SamplerState × List (List Reading)
  | [] => (st, [])
  | (ts, f) :: rest =>
      let (st', out) := pollCycle channels st ts f
      let (stFin, outs) := runCycles channels st' rest
      (stFin, out :: outs)

/-- Modelled from the spec: bounded exponential backoff — the delay before
the (k+1)-st retry after k consecutive failures grows geometrically from
an initial delay and is capped at a maximum inter-attempt delay
(spec §4.2, glossary; `app.py` is absent from the repository). -/
def backoffDelay (initial mult cap : Nat) (k : Nat) : Nat :=
  min (initial * mult ^ k) cap

/-- Modelled from the spec: restarting the process re-opens the output
files in append mode — their rows are kept — while the ring buffer is
recreated empty (spec §3: the persisted files span restarts and are never
truncated; ring-buffer content is lost on restart by design). -/
def restartState (cap : Nat) (logRows csvRows : List Reading) : SamplerState :=
  { ring := emptyRing cap, logFile := logRows, csvFile := csvRows }

/-- One entry of the pm2 deployment configuration, as in
`ecosystem.config.js`. -/
structure PM2App where
  name : String
  script : String
  interpreter : String
  watch : Bool
  env : List (String × String)
deriving DecidableEq, Repr

/-- The `apps` array of `src/ecosystem.config.js`, embedded field by
field. -/
def ecosystemApps : List PM2App :=
  [{ name := "moxa-api",
     script := "app.py",
     interpreter := "~/miniconda3/envs/moxa-api/bin/python",
     watch := false,
     env := [("PYTHONUNBUFFERED", "1")] }]

/-- Modelled from the spec: pm2 automatically restarts/reloads a managed
process on file changes exactly when the app's `watch` flag is set (the
pm2 supervisor itself is outside the repository). -/
def pm2ReloadsOnFileChange (a : PM2App) : Bool :=
  a.watch

theorem mkReading_channel_id (ts : Nat) (resp : List (String × Int)) (c : String) :
    (mkReading ts resp c).channel_id = c := by
  unfold mkReading
  cases lookupChan resp c <;> rfl

theorem mkReading_timestamp (ts : Nat) (resp : List (String × Int)) (c : String) :
    (mkReading ts resp c).timestamp = ts := by
  unfold mkReading
  cases lookupChan resp c <;> rfl

theorem mkBatch_map_channel_id (ts : Nat) (resp : List (String × Int)) (channels : List String) :
    (mkBatch ts channels resp).map Reading.channel_id = channels := by
  induction channels with
  | nil => rfl
  | cons c cs ih =>
      simp only [mkBatch, List.map_cons] at ih ⊢
      rw [mkReading_channel_id, ih]

theorem mkBatch_length (ts : Nat) (resp : List (String × Int)) (channels : List String) :
    (mkBatch ts channels resp).length = channels.length := by
  simp [mkBatch]

/-- Folding `pushList` over a sequence of readings destined for a single
channel. -/
def pushListAll (cap : Nat) (l : List Reading) (rs : List Reading) : List Reading :=
  rs.foldl (pushList cap) l

theorem getChan_setChan_self (s : List (String × List Reading)) (c : String)
    (l : List Reading) : getChan (setChan s c l) c = l := by
  induction s with
  | nil => simp [setChan, getChan]
  | cons p rest ih =>
      obtain ⟨c', l'⟩ := p
      by_cases h : c' = c
      · simp [setChan, getChan, h]
      · simp [setChan, getChan, h, ih]

theorem getChan_setChan_ne (s : List (String × List Reading)) (c c' : String)
    (l : List Reading) (h : c ≠ c') : getChan (setChan s c l) c' = getChan s c' := by
  induction s with
  | nil => simp [setChan, getChan, h]
  | cons p rest ih =>
      obtain ⟨c₀, l₀⟩ := p
      by_cases h₀ : c₀ = c
      · subst h₀
        simp [setChan, getChan, h]
      · simp only [setChan, if_neg h₀]
        by_cases h₁ : c₀ = c'
        · simp [getChan, h₁]
        · simp [getChan, h₁, ih]

theorem pushReading_capacity (rb : RingBuffer) (r : Reading) :
    (pushReading rb r).capacity = rb.capacity := rfl

theorem pushBatch_capacity (rb : RingBuffer) (rs : List Reading) :
    (pushBatch rb rs).capacity = rb.capacity := by
  induction rs generalizing rb with
  | nil => rfl
  | cons r rs ih => exact (ih (pushReading rb r)).trans rfl

/-- Pushing a batch affects each channel exactly by the readings of the
batch addressed to that channel, in batch order. -/
theorem getChan_pushBatch (rs : List Reading) (rb : RingBuffer) (c : String) :
    getChan (pushBatch rb rs).store c
      = pushListAll rb.capacity (getChan rb.store c)
          (rs.filter fun r => r.channel_id = c) := by
  induction rs generalizing rb with
  | nil => rfl
  | cons r rs ih =>
      show getChan (pushBatch (pushReading rb r) rs).store c = _
      rw [ih (pushReading rb r), pushReading_capacity]
      by_cases h : r.channel_id = c
      · rw [show getChan (pushReading rb r).store c
              = pushList rb.capacity (getChan rb.store c) r by
            simp [pushReading, h, getChan_setChan_self]]
        simp [h, pushListAll]
      · rw [show getChan (pushReading rb r).store c = getChan rb.store c from
            getChan_setChan_ne _ _ _ _ h]
        simp [h]

/-- The single-channel fold keeps the most recent `cap` readings: it is
the suffix of `l ++ rs` obtained by dropping everything beyond the last
`cap` entries. -/
theorem pushListAll_eq_drop (cap : Nat) (hcap : 1 ≤ cap) (rs : List Reading) :
    ∀ l : List Reading, l.length ≤ cap →
      pushListAll cap l rs = (l ++ rs).drop ((l ++ rs).length - cap) := by
  induction rs with
  | nil =>
      intro l hl
      simp [pushListAll, Nat.sub_eq_zero_of_le, hl]
  | cons r rs ih =>
      intro l hl
      show pushListAll cap (pushList cap l r) rs = _
      by_cases h : l.length = cap
      · have hlen : (l.tail ++ [r]).length = cap := by
          simp [List.length_tail, h]
          omega
        rw [show pushList cap l r = l.tail ++ [r] by simp [pushList, h]]
        rw [ih (l.tail ++ [r]) (le_of_eq hlen)]
        have hpos : 1 ≤ l.length := by omega
        have htl : l.tail ++ [r] ++ rs = (l ++ r :: rs).drop 1 := by
          rw [List.drop_append_of_le_length hpos]
          simp [List.drop_one]
        rw [htl, List.drop_drop]
        congr 1
        simp [List.length_append, List.length_tail, h]
        omega
      · have hlt : l.length + 1 ≤ cap := by omega
        rw [show pushList cap l r = l ++ [r] by simp [pushList, h]]
        rw [ih (l ++ [r]) (by simpa using hlt)]
        simp [List.append_assoc]

theorem mkBatch_map_timestamp (ts : Nat) (resp : List (String × Int)) (channels : List String) :
    (mkBatch ts channels resp).map Reading.timestamp = List.replicate channels.length ts := by
  induction channels with
  | nil => rfl
  | cons c cs ih =>
      simp only [mkBatch, List.map_cons, List.length_cons, List.replicate_succ] at ih ⊢
      rw [mkReading_timestamp, ih]

/-- Running cycles only ever appends to the log file: the final log is the
starting log followed by the concatenation of the emitted batches. -/
theorem runCycles_logFile (channels : List String)
    (inputs : List (Nat × Except String (List (String × Int)))) : ∀ st : SamplerState,
    (runCycles channels st inputs).1.logFile
      = st.logFile ++ ((runCycles channels st inputs).2).flatten := by
  induction inputs with
  | nil => intro st; simp [runCycles]
  | cons p rest ih =>
      intro st
      obtain ⟨ts, f⟩ := p
      cases f with
      | error e => simp [runCycles, pollCycle, ih]
      | ok resp => simp [runCycles, pollCycle, ih]

/-- Running cycles only ever appends to the CSV file. -/
theorem runCycles_csvFile (channels : List String)
    (inputs : List (Nat × Except String (List (String × Int)))) : ∀ st : SamplerState,
    (runCycles channels st inputs).1.csvFile
      = st.csvFile ++ ((runCycles channels st inputs).2).flatten := by
  induction inputs with
  | nil => intro st; simp [runCycles]
  | cons p rest ih =>
      intro st
      obtain ⟨ts, f⟩ := p
      cases f with
      | error e => simp [runCycles, pollCycle, ih]
      | ok resp => simp [runCycles, pollCycle, ih]

theorem pairwise_le_replicate (n t : Nat) :
    List.Pairwise (· ≤ ·) (List.replicate n t) := by
  induction n with
  | zero => simp
  | succ n ih =>
      rw [List.replicate_succ]
      exact List.Pairwise.cons (fun b hb => (List.eq_of_mem_replicate hb).ge) ih

/-- Replacing one element of a `≤`-sorted list by any number of copies of
itself keeps the list sorted. -/
theorem pairwise_le_replicate_middle {l1 l2 : List Nat} {t : Nat} (n : Nat)
    (h : List.Pairwise (· ≤ ·) (l1 ++ t :: l2)) :
    List.Pairwise (· ≤ ·) (l1 ++ (List.replicate n t ++ l2)) := by
  rw [List.pairwise_append] at h ⊢
  obtain ⟨h1, h2, h12⟩ := h
  rw [List.pairwise_cons] at h2
  obtain ⟨ht2, h2'⟩ := h2
  refine ⟨h1, ?_, ?_⟩
  · rw [List.pairwise_append]
    refine ⟨pairwise_le_replicate n t, h2', ?_⟩
    intro a ha b hb
    rw [List.eq_of_mem_replicate ha]
    exact ht2 b hb
  · intro a ha b hb
    rcases List.mem_append.mp hb with hb | hb
    · rw [List.eq_of_mem_replicate hb]
      exact h12 a ha t (List.mem_cons_self t l2)
    · exact h12 a ha b (List.mem_cons_of_mem t hb)

/-- If the starting CSV rows are `≤`-sorted on timestamp and every later
tick timestamp follows them in sorted order, the CSV stays sorted. -/
theorem runCycles_csv_sorted (channels : List String)
    (inputs : List (Nat × Except String (List (String × Int)))) : ∀ st : SamplerState,
    List.Pairwise (· ≤ ·) (st.csvFile.map Reading.timestamp ++ inputs.map Prod.fst) →
    List.Pairwise (· ≤ ·) ((runCycles channels st inputs).1.csvFile.map Reading.timestamp) := by
  induction inputs with
  | nil =>
      intro st h
      simpa [runCycles] using h
  | cons p rest ih =>
      obtain ⟨ts, f⟩ := p
      intro st h
      simp only [List.map_cons] at h
      cases f with
      | error e =>
          have h' := h.sublist
            (List.Sublist.append_left (List.sublist_cons_self ts (rest.map Prod.fst)) _)
          simpa [runCycles, pollCycle] using ih st h'
      | ok resp =>
          have h' : List.Pairwise (· ≤ ·)
              ((st.csvFile ++ mkBatch ts channels resp).map Reading.timestamp
                ++ rest.map Prod.fst) := by
            rw [List.map_append, mkBatch_map_timestamp, List.append_assoc]
            exact pairwise_le_replicate_middle _ h
          have hstep := ih { ring := pushBatch st.ring (mkBatch ts channels resp),
                             logFile := st.logFile ++ mkBatch ts channels resp,
                             csvFile := st.csvFile ++ mkBatch ts channels resp } h'
          simpa [runCycles, pollCycle] using hstep

/-- Same as `runCycles_csv_sorted` for the structured log file. -/
theorem runCycles_log_sorted (channels : List String)
    (inputs : List (Nat × Except String (List (String × Int)))) : ∀ st : SamplerState,
    List.Pairwise (· ≤ ·) (st.logFile.map Reading.timestamp ++ inputs.map Prod.fst) →
    List.Pairwise (· ≤ ·) ((runCycles channels st inputs).1.logFile.map Reading.timestamp) := by
  induction inputs with
  | nil =>
      intro st h
      simpa [runCycles] using h
  | cons p rest ih =>
      obtain ⟨ts, f⟩ := p
      intro st h
      simp only [List.map_cons] at h
      cases f with
      | error e =>
          have h' := h.sublist
            (List.Sublist.append_left (List.sublist_cons_self ts (rest.map Prod.fst)) _)
          simpa [runCycles, pollCycle] using ih st h'
      | ok resp =>
          have h' : List.Pairwise (· ≤ ·)
              ((st.logFile ++ mkBatch ts channels resp).map Reading.timestamp
                ++ rest.map Prod.fst) := by
            rw [List.map_append, mkBatch_map_timestamp, List.append_assoc]
            exact pairwise_le_replicate_middle _ h
          have hstep := ih { ring := pushBatch st.ring (mkBatch ts channels resp),
                             logFile := st.logFile ++ mkBatch ts channels resp,
                             csvFile := st.csvFile ++ mkBatch ts channels resp } h'
          simpa [runCycles, pollCycle] using hstep

/-- Claim C1: a poll cycle whose fetch fails emits no Reading and leaves
the RingBuffer and both Persister files exactly as they were — the whole
sampler state is unchanged and the cycle's output batch is empty. -/
theorem fetch_failure_atomic (channels : List String) (st : SamplerState) (ts : Nat)
    (e : String) :
    pollCycle channels st ts (Except.error e) = (st, []) :=
  rfl

/-- Claim C2: a successful poll cycle produces exactly one Reading per
configured channel, and the batch's channel identifiers are the
configured channels in configured order. -/
theorem success_one_reading_per_channel (channels : List String) (st : SamplerState)
    (ts : Nat) (resp : List (String × Int)) :
    (pollCycle channels st ts (Except.ok resp)).2.map Reading.channel_id = channels ∧
    (pollCycle channels st ts (Except.ok resp)).2.length = channels.length :=
  ⟨mkBatch_map_channel_id ts resp channels, mkBatch_length ts resp channels⟩

/-- Claim C3: for every channel and every sequence of pushes into an
initially empty buffer of capacity `cap ≥ 1`, the buffer holds at most
`cap` entries for that channel; and after `cap + 1` pushes to one channel
the first-pushed reading (absent from the later pushes) has been evicted
and is no longer in `snapshot`. -/
theorem ringbuffer_bounded_and_evicts_oldest (cap : Nat) (hcap : 1 ≤ cap) (c : String) :
    (∀ rs : List Reading, (snapshot (pushBatch (emptyRing cap) rs) c).1.length ≤ cap) ∧
    (∀ (r : Reading) (rest : List Reading),
      r.channel_id = c → (∀ x ∈ rest, x.channel_id = c) →
      rest.length = cap → r ∉ rest →
      r ∉ (snapshot (pushBatch (emptyRing cap) (r :: rest)) c).1) := by
  have hsnap : ∀ rs : List Reading,
      (snapshot (pushBatch (emptyRing cap) rs) c).1
        = (rs.filter fun r => r.channel_id = c).drop
            ((rs.filter fun r => r.channel_id = c).length - cap) := by
    intro rs
    show getChan (pushBatch (emptyRing cap) rs).store c = _
    rw [getChan_pushBatch]
    have h0 : getChan (emptyRing cap).store c = [] := rfl
    have hc : (emptyRing cap).capacity = cap := rfl
    rw [h0, hc, pushListAll_eq_drop cap hcap _ [] (by simp)]
    simp
  constructor
  · intro rs
    rw [hsnap rs]
    simp only [List.length_drop]
    omega
  · intro r rest hr hrest hlen hnot
    rw [hsnap (r :: rest)]
    have hfilt : ((r :: rest).filter fun x => x.channel_id = c) = r :: rest := by
      rw [List.filter_eq_self]
      intro a ha
      simp only [decide_eq_true_eq]
      cases ha with
      | head => exact hr
      | tail _ h => exact hrest a h
    rw [hfilt]
    have : (r :: rest).length - cap = 1 := by simp [hlen]
    rw [this, List.drop_one]
    exact hnot

/-- Witness for C3 at capacity 2 on channel `ch0`: after three pushes the
channel holds at most 2 entries and the first-pushed reading is gone. -/
theorem ringbuffer_bounded_and_evicts_oldest_witness :
    (snapshot (pushBatch (emptyRing 2)
        [⟨0, "ch0", 1, Status.ok⟩, ⟨1, "ch0", 2, Status.ok⟩, ⟨2, "ch0", 3, Status.ok⟩])
        "ch0").1.length ≤ 2 ∧
    (⟨0, "ch0", 1, Status.ok⟩ : Reading) ∉ (snapshot (pushBatch (emptyRing 2)
        [⟨0, "ch0", 1, Status.ok⟩, ⟨1, "ch0", 2, Status.ok⟩, ⟨2, "ch0", 3, Status.ok⟩])
        "ch0").1 :=
  ⟨(ringbuffer_bounded_and_evicts_oldest 2 (by decide) "ch0").1
      [⟨0, "ch0", 1, Status.ok⟩, ⟨1, "ch0", 2, Status.ok⟩, ⟨2, "ch0", 3, Status.ok⟩],
   (ringbuffer_bounded_and_evicts_oldest 2 (by decide) "ch0").2
      ⟨0, "ch0", 1, Status.ok⟩ [⟨1, "ch0", 2, Status.ok⟩, ⟨2, "ch0", 3, Status.ok⟩]
      (by decide) (by decide) (by decide) (by decide)⟩

/-- Claim C5: `snapshot` is an idempotent read — it leaves the buffer
unchanged, and calling it twice with no intervening `push` returns the
same sequence both times. -/
theorem snapshot_idempotent (rb : RingBuffer) (c : String) :
    (snapshot rb c).2 = rb ∧
    (snapshot ((snapshot rb c).2) c).1 = (snapshot rb c).1 :=
  ⟨rfl, rfl⟩

/-- Claim C7: a successful poll cycle persists its whole batch to both
durable outputs: the log file and the CSV file each extend by exactly the
batch, so every acquired reading is recorded in both files. -/
theorem batch_persisted_to_log_and_csv (channels : List String) (st : SamplerState)
    (ts : Nat) (resp : List (String × Int)) :
    (pollCycle channels st ts (Except.ok resp)).1.logFile
      = st.logFile ++ (pollCycle channels st ts (Except.ok resp)).2 ∧
    (pollCycle channels st ts (Except.ok resp)).1.csvFile
      = st.csvFile ++ (pollCycle channels st ts (Except.ok resp)).2 ∧
    ∀ r ∈ (pollCycle channels st ts (Except.ok resp)).2,
      r ∈ (pollCycle channels st ts (Except.ok resp)).1.logFile ∧
      r ∈ (pollCycle channels st ts (Except.ok resp)).1.csvFile := by
  refine ⟨rfl, rfl, ?_⟩
  intro r hr
  constructor
  · exact List.mem_append_right _ hr
  · exact List.mem_append_right _ hr

/-- Witness for C7 at a concrete cycle: channel `ch0` with device value 3
is persisted to both files. -/
theorem batch_persisted_to_log_and_csv_witness :
    mkReading 5 [("ch0", 3)] "ch0"
        ∈ (pollCycle ["ch0"] (restartState 4 [] []) 5 (Except.ok [("ch0", 3)])).1.logFile ∧
    mkReading 5 [("ch0", 3)] "ch0"
        ∈ (pollCycle ["ch0"] (restartState 4 [] []) 5 (Except.ok [("ch0", 3)])).1.csvFile :=
  (batch_persisted_to_log_and_csv ["ch0"] (restartState 4 [] []) 5 [("ch0", 3)]).2.2
    (mkReading 5 [("ch0", 3)] "ch0") (by simp [pollCycle, mkBatch])

/-- Claim C8: the deployment configuration defines exactly one managed
application; its script is `app.py` and its interpreter is a Python
binary (the interpreter path ends in `python`). -/
theorem ecosystem_single_python_app :
    ecosystemApps.length = 1 ∧
    ecosystemApps.map PM2App.script = ["app.py"] ∧
    ecosystemApps.map PM2App.interpreter = ["~/miniconda3/envs/moxa-api/bin/" ++ "python"] :=
  ⟨rfl, rfl, rfl⟩

/-- Claim C9: the deployment configuration sets `watch` to `false` for
its one app, so (under pm2's watch semantics) the managed process is
never automatically restarted or reloaded on file changes. -/
theorem ecosystem_watch_disabled :
    ecosystemApps.map PM2App.watch = [false] ∧
    ecosystemApps.map pm2ReloadsOnFileChange = [false] :=
  ⟨rfl, rfl⟩

/-- Claim C10: the deployment configuration sets the environment variable
`PYTHONUNBUFFERED` to `"1"` for the managed process. -/
theorem ecosystem_python_unbuffered :
    ecosystemApps.map PM2App.env = [[("PYTHONUNBUFFERED", "1")]] :=
  rfl

/-- Claim C4: within a run the timestamps of the rows appended to the CSV
and log files are non-decreasing (given the run's tick timestamps follow
the files' existing rows in non-decreasing order), and a restarted
process opens both files in append mode, so the prior run's rows stay in
place and every row written after the restart sits after them. -/
theorem persisted_timestamps_monotone_append_across_restart
    (channels : List String) (cap : Nat) (priorLog priorCsv : List Reading)
    (inputs : List (Nat × Except String (List (String × Int))))
    (hlog : List.Pairwise (· ≤ ·) (priorLog.map Reading.timestamp ++ inputs.map Prod.fst))
    (hcsv : List.Pairwise (· ≤ ·) (priorCsv.map Reading.timestamp ++ inputs.map Prod.fst)) :
    ((runCycles channels (restartState cap priorLog priorCsv) inputs).1.logFile
        = priorLog
          ++ ((runCycles channels (restartState cap priorLog priorCsv) inputs).2).flatten) ∧
    ((runCycles channels (restartState cap priorLog priorCsv) inputs).1.csvFile
        = priorCsv
          ++ ((runCycles channels (restartState cap priorLog priorCsv) inputs).2).flatten) ∧
    List.Pairwise (· ≤ ·)
      ((runCycles channels (restartState cap priorLog priorCsv) inputs).1.logFile.map
        Reading.timestamp) ∧
    List.Pairwise (· ≤ ·)
      ((runCycles channels (restartState cap priorLog priorCsv) inputs).1.csvFile.map
        Reading.timestamp) :=
  ⟨runCycles_logFile channels inputs (restartState cap priorLog priorCsv),
   runCycles_csvFile channels inputs (restartState cap priorLog priorCsv),
   runCycles_log_sorted channels inputs (restartState cap priorLog priorCsv) hlog,
   runCycles_csv_sorted channels inputs (restartState cap priorLog priorCsv) hcsv⟩

/-- Witness for C4: one prior row at timestamp 1, then after a restart a
successful tick at 2 and a failed tick at 3 keep both files sorted, with
the prior row first. -/
theorem persisted_timestamps_monotone_witness :
    ((runCycles ["ch0"]
        (restartState 4 [⟨1, "ch0", 5, Status.ok⟩] [⟨1, "ch0", 5, Status.ok⟩])
        [(2, Except.ok [("ch0", 7)]), (3, Except.error "timeout")]).1.csvFile
      = [⟨1, "ch0", 5, Status.ok⟩]
        ++ ((runCycles ["ch0"]
              (restartState 4 [⟨1, "ch0", 5, Status.ok⟩] [⟨1, "ch0", 5, Status.ok⟩])
              [(2, Except.ok [("ch0", 7)]), (3, Except.error "timeout")]).2).flatten) ∧
    List.Pairwise (· ≤ ·)
      ((runCycles ["ch0"]
          (restartState 4 [⟨1, "ch0", 5, Status.ok⟩] [⟨1, "ch0", 5, Status.ok⟩])
          [(2, Except.ok [("ch0", 7)]), (3, Except.error "timeout")]).1.csvFile.map
        Reading.timestamp) :=
  ⟨(persisted_timestamps_monotone_append_across_restart ["ch0"] 4
      [⟨1, "ch0", 5, Status.ok⟩] [⟨1, "ch0", 5, Status.ok⟩]
      [(2, Except.ok [("ch0", 7)]), (3, Except.error "timeout")]
      (by decide) (by decide)).2.1,
   (persisted_timestamps_monotone_append_across_restart ["ch0"] 4
      [⟨1, "ch0", 5, Status.ok⟩] [⟨1, "ch0", 5, Status.ok⟩]
      [(2, Except.ok [("ch0", 7)]), (3, Except.error "timeout")]
      (by decide) (by decide)).2.2.2⟩

/-- A run of consecutive fetch failures emits an empty batch per failed
cycle; the success that follows emits exactly the one batch built from
its response. -/
theorem runCycles_failures_then_success (channels : List String) (e : String)
    (ts : Nat) (resp : List (String × Int)) :
    ∀ (failTicks : List Nat) (st : SamplerState),
      (runCycles channels st
          (failTicks.map (fun t => (t, Except.error e)) ++ [(ts, Except.ok resp)])).2
        = List.replicate failTicks.length [] ++ [mkBatch ts channels resp] := by
  intro failTicks
  induction failTicks with
  | nil =>
      intro st
      simp [runCycles, pollCycle]
  | cons t rest ih =>
      intro st
      have h1 : (runCycles channels st
            ((t :: rest).map (fun t => (t, Except.error e)) ++ [(ts, Except.ok resp)])).2
          = [] :: (runCycles channels st
              (rest.map (fun t => (t, Except.error e)) ++ [(ts, Except.ok resp)])).2 := rfl
      rw [h1, ih st]
      simp [List.replicate_succ]

/-- Claim C6: during a run of consecutive fetch failures the backoff
delays are non-decreasing and never exceed the configured maximum, and
the first success that follows the failures produces exactly one batch
(each failed cycle produced none). -/
theorem backoff_monotone_bounded_single_success_batch
    (initial mult cap : Nat) (hm : 1 ≤ mult)
    (channels : List String) (st : SamplerState) (e : String)
    (failTicks : List Nat) (ts : Nat) (resp : List (String × Int)) :
    (∀ k, backoffDelay initial mult cap k ≤ backoffDelay initial mult cap (k + 1)) ∧
    (∀ k, backoffDelay initial mult cap k ≤ cap) ∧
    (runCycles channels st
        (failTicks.map (fun t => (t, Except.error e)) ++ [(ts, Except.ok resp)])).2
      = List.replicate failTicks.length [] ++ [mkBatch ts channels resp] := by
  refine ⟨?_, ?_, runCycles_failures_then_success channels e ts resp failTicks st⟩
  · intro k
    exact min_le_min
      (Nat.mul_le_mul_left initial (Nat.pow_le_pow_right hm (Nat.le_succ k)))
      (le_refl cap)
  · intro k
    exact min_le_right _ _

/-- Witness for C6: backoff 1·2^k capped at 30 over three failed ticks,
then one success emitting a single batch. -/
theorem backoff_monotone_bounded_single_success_batch_witness :
    backoffDelay 1 2 30 2 ≤ backoffDelay 1 2 30 3 ∧
    backoffDelay 1 2 30 7 ≤ 30 ∧
    (runCycles ["ch0"] (restartState 4 [] [])
        (([10, 11, 12] : List Nat).map (fun t => (t, Except.error "timeout"))
          ++ [(13, Except.ok [("ch0", 3)])])).2
      = List.replicate 3 [] ++ [mkBatch 13 ["ch0"] [("ch0", 3)]] :=
  ⟨(backoff_monotone_bounded_single_success_batch 1 2 30 (by decide) ["ch0"]
      (restartState 4 [] []) "timeout" [10, 11, 12] 13 [("ch0", 3)]).1 2,
   (backoff_monotone_bounded_single_success_batch 1 2 30 (by decide) ["ch0"]
      (restartState 4 [] []) "timeout" [10, 11, 12] 13 [("ch0", 3)]).2.1 7,
   (backoff_monotone_bounded_single_success_batch 1 2 30 (by decide) ["ch0"]
      (restartState 4 [] []) "timeout" [10, 11, 12] 13 [("ch0", 3)]).2.2⟩
